import Mathlib

/-!
Verification of the LingStorage Go SDK client (`lingstorage` package) against its
natural-language specification.  The Go code is shallowly embedded: `time.Duration`
values are `Int` nanoseconds, Go `int` is `Int` (list indices and attempt counters
that the code keeps non-negative are `Nat`), HTTP traffic is modelled by the data
the client sends and by the per-attempt outcome it observes, and JSON decoding of a
response body is passed in as the decoded value (`Option` = whether `json.Unmarshal`
succeeded), since the client only branches on the decoded fields.
-/

namespace LingStorage

/-- Nanoseconds in one second (`time.Second` in Go). -/
def nsPerSecond : Int := 1000000000

/-- Modelled from the spec: `constants.DEFAULT_USER_AGENT` — the constants package is
not under `src/`; the spec says defaults include "a fixed user-agent string", and
`client_test.go` (TestNewClient) pins its value to `"LingStorage-SDK/1.0.0"`. -/
def DEFAULT_USER_AGENT : String := "LingStorage-SDK/1.0.0"

/-- Go `Config`: the LingStorage client configuration (`client.go`). `timeout` is a
`time.Duration` in nanoseconds. -/
structure Config where
  baseURL : String
  apiKey : String
  apiSecret : String
  timeout : Int
  retryCount : Int
  userAgent : String
deriving Repr, DecidableEq

/-- Go `NewClient`'s mutation of the caller's `Config`: each zero-valued field is
overwritten with its default, and the client keeps the resulting config. -/
def newClientConfig (config : Config) : Config :=
  let config1 := if config.timeout = 0 then { config with timeout := 30 * nsPerSecond } else config
  let config2 := if config1.retryCount = 0 then { config1 with retryCount := 3 } else config1
  if config2.userAgent = "" then { config2 with userAgent := DEFAULT_USER_AGENT } else config2

/-- Go `APIError` (`client.go`). -/
structure APIError where
  statusCode : Int
  message : String
  details : String
deriving Repr, DecidableEq

/-- An error returned by an SDK call: either a structured `*APIError` or a plain
error built with `fmt.Errorf`. -/
inductive SDKError where
  | api (e : APIError)
  | wrapped (msg : String)
deriving Repr, DecidableEq

/-- Outcome of one `httpClient.Do` call: a transport-level failure (`err != nil`) or
a response with the given HTTP status code. -/
inductive AttemptResult where
  | transportFailure
  | response (statusCode : Int)
deriving Repr, DecidableEq

/-- Whether the retry loops keep going after this attempt: Go breaks out of the loop
when `lastErr == nil && resp.StatusCode < 500`, so an attempt is retryable iff it is
a transport failure or a response with status >= 500. -/
def retryable (r : AttemptResult) : Bool :=
  match r with
  | AttemptResult.transportFailure => true
  | AttemptResult.response statusCode => decide (500 ≤ statusCode)

/-- The retry loop `for i := 0; i <= retryCount; i++ { resp = Do(req); if ok break;
if i < retryCount { time.Sleep((i+1) * time.Second) } }` shared by
`doRequestWithRetry`, `uploadReader` and `Ping`.  `server i` is the outcome of the
i-th HTTP attempt (0-indexed), `i` the current loop index and `remaining` the number
of loop iterations still allowed after this one (`retryCount - i`).  Returns the
attempts actually made, in order, and the sleeps (in nanoseconds) performed between
consecutive attempts. -/
def retryLoopAux (server : Nat → AttemptResult) : Nat → Nat → List AttemptResult × List Int
  | i, 0 => ([server i], [])
  | i, remaining + 1 =>
    let r := server i
    if retryable r then
      let rest := retryLoopAux server (i + 1) remaining
      (r :: rest.1, ((i : Int) + 1) * nsPerSecond :: rest.2)
    else ([r], [])

/-- The HTTP attempts made by one retried request, in order. -/
def retryAttempts (server : Nat → AttemptResult) (retryCount : Nat) : List AttemptResult :=
  (retryLoopAux server 0 retryCount).1

/-- The sleeps (nanoseconds) performed between consecutive attempts of one retried
request, in order. -/
def retrySleeps (server : Nat → AttemptResult) (retryCount : Nat) : List Int :=
  (retryLoopAux server 0 retryCount).2

/-- Go `fmtFrac` from `time` (called by `Duration.String`): the fraction digits of
`v` (precision `prec`), least significant first in the Go loop, with trailing zeros
omitted; `pr` is Go's `print` flag.  Returns the digits most-significant-first and
`v / 10^prec`. -/
def fmtFracGo : Nat → Nat → Bool → List Char × Nat
  | v, 0, _ => ([], v)
  | v, prec + 1, pr =>
    let digit := v % 10
    let pr2 := pr || decide (digit ≠ 0)
    let here : List Char := if pr2 then [Char.ofNat (48 + digit)] else []
    let rest := fmtFracGo (v / 10) prec pr2
    (rest.1 ++ here, rest.2)

/-- The fraction as a string: Go writes a leading `.` exactly when some digit was
printed. -/
def fmtFracStr (v prec : Nat) : String × Nat :=
  let r := fmtFracGo v prec false
  (if r.1 = [] then "" else "." ++ String.mk r.1, r.2)

/-- Go `time.Duration.String`: the default textual form of a duration in
nanoseconds, e.g. `"1h0m0s"` for one hour. -/
def durationString (d : Int) : String :=
  let u := d.natAbs
  let core :=
    if u < 1000000000 then
      if u = 0 then "0s"
      else
        let pu : Nat × String :=
          if u < 1000 then (0, "ns")
          else if u < 1000000 then (3, "µs")
          else (6, "ms")
        let fr := fmtFracStr u pu.1
        toString fr.2 ++ fr.1 ++ pu.2
    else
      let fr := fmtFracStr u 9
      let secs := fr.2
      let sPart := toString (secs % 60) ++ fr.1 ++ "s"
      let mins := secs / 60
      if mins > 0 then
        let mPart := toString (mins % 60) ++ "m" ++ sPart
        let hours := mins / 60
        if hours > 0 then toString hours ++ "h" ++ mPart else mPart
      else sPart
  if d < 0 then "-" ++ core else core

/-- Go `strings.TrimRight(s, "/")` as applied to the base URL. -/
def trimRightSlash (s : String) : String :=
  String.mk ((s.toList.reverse.dropWhile (fun c => c = '/')).reverse)

/-- The parts of an outgoing HTTP request that the claims are about. -/
structure RequestModel where
  method : String
  url : String
  query : List (String × String)
deriving Repr, DecidableEq

/-- Go `GetFileURL`'s request: `GET {base}/api/public/files/{bucket}/{key}/url`,
with query parameter `expires` set to `expires.String()` when `expires > 0`. -/
def getFileURLRequest (baseURL bucket key : String) (expires : Int) : RequestModel :=
  { method := "GET"
    url := trimRightSlash baseURL ++ "/api/public/files/" ++ bucket ++ "/" ++ key ++ "/url"
    query := if expires > 0 then [("expires", durationString expires)] else [] }

/-- Go `UploadResult` (`client.go`). -/
structure UploadResult where
  key : String
  bucket : String
  filename : String
  size : Int
  originalSize : Int
  compressed : Bool
  watermarked : Bool
  url : String
deriving Repr, DecidableEq

/-- The anonymous response struct `uploadReader` decodes a 200 body into:
`{success bool, message string, data UploadResult, code int, msg string}`. -/
structure UploadEnvelope where
  success : Bool
  message : String
  data : UploadResult
  code : Int
  msg : String
deriving Repr, DecidableEq

/-- Go `handleErrorResponse`: try to `json.Unmarshal` the body into `APIError`
(`parsedErr = some e` iff that unmarshal succeeded, with `e` the decoded value);
on success overwrite its status code, otherwise use the raw body as the message. -/
def handleErrorResponse (statusCode : Int) (rawBody : String) (parsedErr : Option APIError) :
    SDKError :=
  match parsedErr with
  | some apiErr => SDKError.api { apiErr with statusCode := statusCode }
  | none => SDKError.api { statusCode := statusCode, message := rawBody, details := "" }

/-- The response handling of `uploadReader` after the retry loop has produced a
response: non-200 statuses go through the same decode-or-raw-text error path as
`handleErrorResponse`; a 200 body is decoded into the envelope (`parsedEnv = some e`
iff `json.Unmarshal` succeeded), the call succeeds iff `success || code == 200`, and
on an envelope failure the message prefers `message`, falling back to `msg`. -/
def uploadReaderHandleResponse (statusCode : Int) (rawBody : String)
    (parsedErr : Option APIError) (parsedEnv : Option UploadEnvelope) :
    Except SDKError UploadResult :=
  if statusCode ≠ 200 then
    match parsedErr with
    | some apiErr => Except.error (SDKError.api { apiErr with statusCode := statusCode })
    | none => Except.error (SDKError.api { statusCode := statusCode, message := rawBody, details := "" })
  else
    match parsedEnv with
    | none => Except.error (SDKError.wrapped "failed to parse response")
    | some e =>
      let isSuccess := e.success || decide (e.code = 200)
      if isSuccess then Except.ok e.data
      else
        let message := if e.message = "" then e.msg else e.message
        Except.error (SDKError.api { statusCode := statusCode, message := message, details := "" })

/-- The anonymous response struct `GetFileURL` decodes a 200 body into:
`{success bool, data {url string}}`.  Note it carries no code/message/msg fields. -/
structure GetFileURLEnvelope where
  success : Bool
  url : String
deriving Repr, DecidableEq

/-- The response handling of `GetFileURL`: non-200 goes to `handleErrorResponse`;
a 200 body that decodes returns `apiResp.Data.URL` — the `success` flag of the
envelope is never inspected. -/
def getFileURLHandleResponse (statusCode : Int) (rawBody : String)
    (parsedErr : Option APIError) (parsedEnv : Option GetFileURLEnvelope) :
    Except SDKError String :=
  if statusCode ≠ 200 then Except.error (handleErrorResponse statusCode rawBody parsedErr)
  else
    match parsedEnv with
    | none => Except.error (SDKError.wrapped "failed to parse response")
    | some e => Except.ok e.url

/-- Go `UploadRequest` (`client.go`), without the `OnProgress` function field, which
is modelled separately by the progress traces below. -/
structure UploadRequest where
  filePath : String
  bucket : String
  key : String
  allowedTypes : List String
  compress : Bool
  quality : Int
  watermark : Bool
  watermarkText : String
  watermarkPosition : String
deriving Repr, DecidableEq

/-- The multipart text form fields written by `uploadReader` after the `file` part,
in order: bucket and key when non-empty; `compress=true` plus `quality` (when > 0)
when compressing; `watermark=true` plus `watermarkText` / `watermarkPosition` (when
non-empty) when watermarking. -/
def uploadFormFields (req : UploadRequest) : List (String × String) :=
  (if req.bucket ≠ "" then [("bucket", req.bucket)] else []) ++
  (if req.key ≠ "" then [("key", req.key)] else []) ++
  (if req.compress then
      ("compress", "true") ::
        (if req.quality > 0 then [("quality", toString req.quality)] else [])
    else []) ++
  (if req.watermark then
      ("watermark", "true") ::
        ((if req.watermarkText ≠ "" then [("watermarkText", req.watermarkText)] else []) ++
          (if req.watermarkPosition ≠ "" then
              [("watermarkPosition", req.watermarkPosition)]
            else []))
    else [])

/-- The query parameters `uploadReader` adds to the upload URL: one repeated
`allowedTypes` parameter per entry (Go only touches the query when the list is
non-empty, which adds nothing for an empty list). -/
def uploadQueryParams (req : UploadRequest) : List (String × String) :=
  req.allowedTypes.map (fun t => ("allowedTypes", t))

/-- The multipart body `uploadReader` builds: the payload under form field `file`
(with the given filename and content bytes) followed by the text fields. -/
structure MultipartBody where
  fileField : String
  fileName : String
  fileContent : List Nat
  fields : List (String × String)
deriving Repr, DecidableEq

/-- Go `uploadReader`'s body construction. -/
def uploadBody (filename : String) (content : List Nat) (req : UploadRequest) : MultipartBody :=
  { fileField := "file", fileName := filename, fileContent := content
    fields := uploadFormFields req }

/-- Go `progressReader.Read`: each `Read` of the wrapped reader returns `n` bytes,
`pr.read += n`, and the callback fires with `(pr.read, pr.total)`.  `chunks` is the
sequence of byte counts the underlying reader returns (the final 0-byte EOF read
included if it occurs), `read` the running count; the result is the list of
`(uploaded, total)` callback invocations, in order. -/
def progressCalls (total : Int) : List Nat → Int → List (Int × Int)
  | [], _ => []
  | n :: rest, read => (read + (n : Int), total) :: progressCalls total rest (read + (n : Int))

/-- Go `UploadFromReader`'s size determination: keep `req.Size` when positive, else
seek to the end when the reader is an `io.Seeker` (`seekLen = some len`), else leave
the non-positive `req.Size` unchanged. -/
def uploadFromReaderSize (reqSize : Int) (seekLen : Option Int) : Int :=
  if reqSize ≤ 0 then
    match seekLen with
    | some len => len
    | none => reqSize
  else reqSize

/-- The progress callback invocations made by `UploadFromReader`: the reader is
wrapped in a `progressReader` only when an observer is supplied and the determined
size is positive; otherwise no callback ever fires. -/
def uploadFromReaderProgressCalls (hasObserver : Bool) (reqSize : Int) (seekLen : Option Int)
    (chunks : List Nat) : List (Int × Int) :=
  let size := uploadFromReaderSize reqSize seekLen
  if hasObserver then
    if size > 0 then progressCalls size chunks 0 else []
  else []

/-- Go `filepath.Base` (unix separators): strip trailing slashes, take everything
after the last slash; empty path gives `"."`, an all-slash path gives `"/"`. -/
def filepathBase (path : String) : String :=
  if path = "" then "."
  else
    let stripped := (path.toList.reverse.dropWhile (fun c => c = '/')).reverse
    let lastElem := (stripped.reverse.takeWhile (fun c => c ≠ '/')).reverse
    if lastElem = [] then "/" else String.mk lastElem

/-- Go `UploadError` (`client.go`). -/
structure UploadError where
  file : String
  error : String
deriving Repr, DecidableEq

/-- Go `BatchUploadResult` (`client.go`). -/
structure BatchUploadResult where
  success : List UploadResult
  failed : List UploadError
  total : Nat
deriving Repr, DecidableEq

/-- Go `BatchUploadRequest` (`client.go`), without the two function fields (the
per-batch observer is modelled by the returned call trace, the per-file observer by
the progress traces above).  `keyPref` is the Go field `KeyPrefix`. -/
structure BatchUploadRequest where
  files : List String
  bucket : String
  keyPref : String
  allowedTypes : List String
  compress : Bool
  quality : Int
  watermark : Bool
  watermarkText : String
  watermarkPosition : String
deriving Repr, DecidableEq

/-- The `UploadRequest` that `BatchUpload` builds for one file of the batch: shared
bucket/flags, and `Key = KeyPrefix + "/" + filepath.Base(path)` when a key prefix is
configured, else no key. -/
def batchItemRequest (req : BatchUploadRequest) (filePath : String) : UploadRequest :=
  let base : UploadRequest :=
    { filePath := filePath, bucket := req.bucket, key := "", allowedTypes := req.allowedTypes
      compress := req.compress, quality := req.quality, watermark := req.watermark
      watermarkText := req.watermarkText, watermarkPosition := req.watermarkPosition }
  if req.keyPref ≠ "" then { base with key := req.keyPref ++ "/" ++ filepathBase filePath }
  else base

/-- The loop body of Go `BatchUpload`: for the i-th file, invoke the per-batch
observer with `(i, total, path)`, upload, and append to `Success` on success or to
`Failed` (with the file path and `err.Error()`) on failure.  `uploadF` is the
outcome of `c.UploadFile` on the constructed request (its error rendered by
`err.Error()`); `n` is `len(req.Files)`.  Returns `(Success, Failed, observer call
trace)`, each in input-list order. -/
def batchUploadLoop (uploadF : UploadRequest → Except String UploadResult)
    (req : BatchUploadRequest) (n : Nat) :
    List String → Nat → List UploadResult × List UploadError × List (Nat × Nat × String)
  | [], _ => ([], [], [])
  | filePath :: rest, i =>
    let uploadReq := batchItemRequest req filePath
    let r := batchUploadLoop uploadF req n rest (i + 1)
    match uploadF uploadReq with
    | Except.error e =>
        (r.1, { file := filePath, error := e } :: r.2.1, (i, n, filePath) :: r.2.2)
    | Except.ok res => (res :: r.1, r.2.1, (i, n, filePath) :: r.2.2)

/-- Go `BatchUpload`: run the loop over all files and finish with the extra observer
call `(len(files), len(files), "")`.  Returns the `BatchUploadResult` and the
per-batch observer call trace. -/
def batchUploadRun (uploadF : UploadRequest → Except String UploadResult)
    (req : BatchUploadRequest) : BatchUploadResult × List (Nat × Nat × String) :=
  let n := req.files.length
  let r := batchUploadLoop uploadF req n req.files 0
  ({ success := r.1, failed := r.2.1, total := n }, r.2.2 ++ [(n, n, "")])

/-- Go `BatchUpload`'s full return value `(result, error)`: the only return
statement is `return result, nil`, so the error component is always `ok`. -/
def batchUpload (uploadF : UploadRequest → Except String UploadResult)
    (req : BatchUploadRequest) : Except SDKError BatchUploadResult × List (Nat × Nat × String) :=
  let r := batchUploadRun uploadF req
  (Except.ok r.1, r.2)

/-! Helper lemmas about the retry loop. -/

theorem retryLoopAux_fst_ne_nil (server : Nat → AttemptResult) (i remaining : Nat) :
    (retryLoopAux server i remaining).1 ≠ [] := by
  cases remaining with
  | zero => simp [retryLoopAux]
  | succ r =>
    by_cases h : retryable (server i) = true <;> simp [retryLoopAux, h]

theorem retryLoopAux_length_le (server : Nat → AttemptResult) (remaining : Nat) :
    ∀ i, (retryLoopAux server i remaining).1.length ≤ remaining + 1 := by
  induction remaining with
  | zero => intro i; simp [retryLoopAux]
  | succ r ih =>
    intro i
    by_cases h : retryable (server i) = true
    · simp only [retryLoopAux, h, if_true, List.length_cons]
      exact Nat.succ_le_succ (ih (i + 1))
    · simp [retryLoopAux, h]

theorem retryLoopAux_length_all500 (server : Nat → AttemptResult)
    (h : ∀ j, server j = AttemptResult.response 500) (remaining : Nat) :
    ∀ i, (retryLoopAux server i remaining).1.length = remaining + 1 := by
  induction remaining with
  | zero => intro i; simp [retryLoopAux]
  | succ r ih =>
    intro i
    have hr : retryable (server i) = true := by simp [h i, retryable]
    simp only [retryLoopAux, hr, if_true, List.length_cons, ih (i + 1)]

theorem retryLoopAux_not_retryable (server : Nat → AttemptResult) (i remaining : Nat)
    (h : retryable (server i) = false) :
    (retryLoopAux server i remaining).1 = [server i] := by
  cases remaining <;> simp [retryLoopAux, h]

theorem retryLoopAux_retry_iff (server : Nat → AttemptResult) (remaining : Nat) :
    ∀ i k, k + 1 < (retryLoopAux server i remaining).1.length ↔
      (k < (retryLoopAux server i remaining).1.length ∧ k < remaining ∧
        retryable (server (i + k)) = true) := by
  induction remaining with
  | zero => intro i k; simp [retryLoopAux]
  | succ r ih =>
    intro i k
    by_cases h : retryable (server i) = true
    · have hlen : 0 < (retryLoopAux server (i + 1) r).1.length :=
        List.length_pos.mpr (retryLoopAux_fst_ne_nil server (i + 1) r)
      simp only [retryLoopAux, h, if_true, List.length_cons]
      cases k with
      | zero =>
        simp only [Nat.add_zero, h, and_true]
        omega
      | succ j =>
        have hiff := ih (i + 1) j
        have harith : i + (j + 1) = i + 1 + j := by omega
        rw [harith]
        constructor
        · intro hlt
          obtain ⟨h1, h2, h3⟩ := hiff.mp (by omega)
          exact ⟨by omega, by omega, h3⟩
        · rintro ⟨h1, h2, h3⟩
          have := hiff.mpr ⟨by omega, by omega, h3⟩
          omega
    · rw [Bool.not_eq_true] at h
      rw [retryLoopAux_not_retryable server i (r + 1) h]
      simp only [List.length_singleton]
      constructor
      · intro hlt; omega
      · rintro ⟨h1, h2, h3⟩
        have hk : k = 0 := by omega
        subst hk
        rw [Nat.add_zero] at h3
        simp [h] at h3

theorem retryLoopAux_snd_length (server : Nat → AttemptResult) (remaining : Nat) :
    ∀ i, (retryLoopAux server i remaining).1.length =
      (retryLoopAux server i remaining).2.length + 1 := by
  induction remaining with
  | zero => intro i; simp [retryLoopAux]
  | succ r ih =>
    intro i
    by_cases h : retryable (server i) = true <;> simp [retryLoopAux, h, ih (i + 1)]

theorem retryLoopAux_snd_eq (server : Nat → AttemptResult) (remaining : Nat) :
    ∀ i, (retryLoopAux server i remaining).2 =
      (List.range (retryLoopAux server i remaining).2.length).map
        (fun k : Nat => ((i : Int) + (k : Int) + 1) * nsPerSecond) := by
  induction remaining with
  | zero => intro i; simp [retryLoopAux]
  | succ r ih =>
    intro i
    by_cases hr : retryable (server i) = true
    · simp only [retryLoopAux, hr, if_true, List.length_cons]
      rw [List.range_succ_eq_map, List.map_cons, List.map_map]
      refine congrArg₂ List.cons (by norm_num) ?_
      conv_lhs => rw [ih (i + 1)]
      refine List.map_congr_left (fun k _ => ?_)
      simp only [Function.comp_apply]
      push_cast
      ring
    · simp [retryLoopAux, hr]

/-- C2: at most `RetryCount+1` HTTP attempts are made per call; a further attempt
follows attempt k exactly when attempt k happened, was a transport failure or a
status >= 500 response, and the attempt budget is not exhausted; a server always
answering 500 is contacted exactly `RetryCount+1` times, and a server answering 400
is contacted exactly once. -/
theorem c2_retry_attempt_counts (server : Nat → AttemptResult) (retryCount : Nat) :
    (retryAttempts server retryCount).length ≤ retryCount + 1 ∧
    ((∀ j, server j = AttemptResult.response 500) →
      (retryAttempts server retryCount).length = retryCount + 1) ∧
    (server 0 = AttemptResult.response 400 →
      retryAttempts server retryCount = [AttemptResult.response 400]) ∧
    (∀ k, k + 1 < (retryAttempts server retryCount).length ↔
      (k < (retryAttempts server retryCount).length ∧ k < retryCount ∧
        retryable (server k) = true)) := by
  refine ⟨retryLoopAux_length_le server retryCount 0,
    fun h => retryLoopAux_length_all500 server h retryCount 0, fun h => ?_, fun k => ?_⟩
  · have hnr : retryable (server 0) = false := by simp [h, retryable]
    rw [retryAttempts, retryLoopAux_not_retryable server 0 retryCount hnr, h]
  · simpa using retryLoopAux_retry_iff server retryCount 0 k

/-- C2 witness: a server always answering 500 with `RetryCount = 2` is contacted 3
times; one always answering 400 is contacted once. -/
theorem c2_retry_attempt_counts_witness :
    (retryAttempts (fun _ => AttemptResult.response 500) 2).length = 3 ∧
    retryAttempts (fun _ => AttemptResult.response 400) 2 = [AttemptResult.response 400] :=
  ⟨(c2_retry_attempt_counts (fun _ => AttemptResult.response 500) 2).2.1 (fun _ => rfl),
    (c2_retry_attempt_counts (fun _ => AttemptResult.response 400) 2).2.2.1 rfl⟩

/-- C8: a sleep separates every pair of consecutive attempts, and the sleep after
attempt k (0-indexed) is exactly `(k+1)` seconds — fixed linear backoff, no jitter,
no cap. -/
theorem c8_linear_backoff (server : Nat → AttemptResult) (retryCount : Nat) :
    (retryAttempts server retryCount).length = (retrySleeps server retryCount).length + 1 ∧
    retrySleeps server retryCount =
      (List.range (retrySleeps server retryCount).length).map
        (fun k : Nat => ((k : Int) + 1) * nsPerSecond) := by
  refine ⟨retryLoopAux_snd_length server retryCount 0, ?_⟩
  show (retryLoopAux server 0 retryCount).2 =
    (List.range (retryLoopAux server 0 retryCount).2.length).map
      (fun k : Nat => ((k : Int) + 1) * nsPerSecond)
  conv_lhs => rw [retryLoopAux_snd_eq server retryCount 0]
  exact List.map_congr_left (fun k _ => by push_cast; ring)

/-- C5: `NewClient` gives each unset (zero-valued) config field its default —
Timeout 30 seconds, RetryCount 3, UserAgent the fixed default string — leaves set
fields and all other fields unchanged, and applying the defaulting again changes
nothing, so the defaults are applied exactly once at construction. -/
theorem c5_newClient_defaults (config : Config) :
    (newClientConfig config).timeout =
      (if config.timeout = 0 then 30 * nsPerSecond else config.timeout) ∧
    (newClientConfig config).retryCount =
      (if config.retryCount = 0 then 3 else config.retryCount) ∧
    (newClientConfig config).userAgent =
      (if config.userAgent = "" then DEFAULT_USER_AGENT else config.userAgent) ∧
    (newClientConfig config).baseURL = config.baseURL ∧
    (newClientConfig config).apiKey = config.apiKey ∧
    (newClientConfig config).apiSecret = config.apiSecret ∧
    newClientConfig (newClientConfig config) = newClientConfig config := by
  obtain ⟨b, k, s, t, r, u⟩ := config
  simp only [newClientConfig, nsPerSecond, DEFAULT_USER_AGENT]
  by_cases ht : t = 0 <;> by_cases hr : r = 0 <;> by_cases hu : u = "" <;>
    simp [ht, hr, hu]

/-- C9: an explicitly zero RetryCount or Timeout is indistinguishable from an unset
field, so `NewClient` overwrites it with the default (3 retries, 30 seconds) in the
config the client keeps; consequently the constructed client can never have zero
retries or a zero timeout. -/
theorem c9_zero_values_get_defaults (config : Config) :
    (config.retryCount = 0 → (newClientConfig config).retryCount = 3) ∧
    (config.timeout = 0 → (newClientConfig config).timeout = 30 * nsPerSecond) ∧
    (newClientConfig config).retryCount ≠ 0 ∧
    (newClientConfig config).timeout ≠ 0 := by
  obtain ⟨b, k, s, t, r, u⟩ := config
  simp only [newClientConfig, nsPerSecond]
  by_cases ht : t = 0 <;> by_cases hr : r = 0 <;> by_cases hu : u = "" <;>
    simp [ht, hr, hu]

/-- C9 witness: a config with RetryCount 0 and Timeout 0 ends up with RetryCount 3
and Timeout 30 seconds. -/
theorem c9_zero_values_get_defaults_witness :
    (newClientConfig
      { baseURL := "", apiKey := "", apiSecret := "", timeout := 0, retryCount := 0,
        userAgent := "" }).retryCount = 3 ∧
    (newClientConfig
      { baseURL := "", apiKey := "", apiSecret := "", timeout := 0, retryCount := 0,
        userAgent := "" }).timeout = 30 * nsPerSecond :=
  ⟨(c9_zero_values_get_defaults _).1 rfl, (c9_zero_values_get_defaults _).2.1 rfl⟩

/-- C7: for every base URL, bucket and key, `GetFileURL` with an expiry of one hour
sends the query parameter `expires=1h0m0s`, the duration's default textual form. -/
theorem c7_expires_one_hour (baseURL bucket key : String) :
    (getFileURLRequest baseURL bucket key (3600 * nsPerSecond)).query =
      [("expires", "1h0m0s")] := by
  show (if (3600 * nsPerSecond : Int) > 0
      then [("expires", durationString (3600 * nsPerSecond))] else []) = _
  decide

/-! Helper lemmas about the progress callback trace. -/

theorem progressCalls_length (total : Int) (chunks : List Nat) :
    ∀ read, (progressCalls total chunks read).length = chunks.length := by
  induction chunks with
  | nil => intro read; simp [progressCalls]
  | cons n rest ih => intro read; simp [progressCalls, ih]

theorem progressCalls_mem_snd (total : Int) (chunks : List Nat) :
    ∀ read c, c ∈ progressCalls total chunks read → c.2 = total := by
  induction chunks with
  | nil => intro read c hc; simp [progressCalls] at hc
  | cons n rest ih =>
    intro read c hc
    rcases List.mem_cons.mp hc with h | h
    · rw [h]
    · exact ih (read + (n : Int)) c h

theorem progressCalls_mem_fst_ge (total : Int) (chunks : List Nat) :
    ∀ read c, c ∈ progressCalls total chunks read → read ≤ c.1 := by
  induction chunks with
  | nil => intro read c hc; simp [progressCalls] at hc
  | cons n rest ih =>
    intro read c hc
    have hn : (0 : Int) ≤ (n : Int) := Int.ofNat_nonneg n
    rcases List.mem_cons.mp hc with h | h
    · rw [h]
      show read ≤ read + (n : Int)
      omega
    · have := ih (read + (n : Int)) c h
      omega

theorem progressCalls_mem_fst_le (total : Int) (chunks : List Nat) :
    ∀ read c, c ∈ progressCalls total chunks read → c.1 ≤ read + (chunks.sum : Int) := by
  induction chunks with
  | nil => intro read c hc; simp [progressCalls] at hc
  | cons n rest ih =>
    intro read c hc
    have hsum : ((n :: rest).sum : Int) = (n : Int) + (rest.sum : Int) := by
      rw [List.sum_cons]; push_cast; ring
    have hr : (0 : Int) ≤ (rest.sum : Int) := Int.ofNat_nonneg _
    rcases List.mem_cons.mp hc with h | h
    · rw [h]
      show read + (n : Int) ≤ read + ((n :: rest).sum : Int)
      omega
    · have := ih (read + (n : Int)) c h
      omega

theorem progressCalls_pairwise (total : Int) (chunks : List Nat) :
    ∀ read, List.Pairwise (fun a b => a.1 ≤ b.1) (progressCalls total chunks read) := by
  induction chunks with
  | nil => intro read; simp [progressCalls]
  | cons n rest ih =>
    intro read
    refine List.Pairwise.cons (fun b hb => ?_) (ih (read + (n : Int)))
    exact progressCalls_mem_fst_ge total rest (read + (n : Int)) b hb

theorem progressCalls_getLast? (total : Int) :
    ∀ (chunks : List Nat), chunks ≠ [] → ∀ read,
      (progressCalls total chunks read).getLast? =
        some (read + (chunks.sum : Int), total) := by
  intro chunks
  induction chunks with
  | nil => intro h; exact absurd rfl h
  | cons n rest ih =>
    intro _ read
    cases rest with
    | nil => simp [progressCalls]
    | cons m rest2 =>
      have step : progressCalls total (n :: m :: rest2) read =
          (read + (n : Int), total) :: progressCalls total (m :: rest2) (read + (n : Int)) := rfl
      have tail_eq : progressCalls total (m :: rest2) (read + (n : Int)) =
          (read + (n : Int) + (m : Int), total) ::
            progressCalls total rest2 (read + (n : Int) + (m : Int)) := rfl
      rw [step, tail_eq, List.getLast?_cons_cons, ← tail_eq, ih (by simp) (read + (n : Int))]
      have harith : read + (n : Int) + (((m :: rest2).sum : Nat) : Int) =
          read + (((n :: m :: rest2).sum : Nat) : Int) := by
        rw [List.sum_cons, List.sum_cons, List.sum_cons]; push_cast; ring
      rw [harith]

/-- C4: uploading a source of known size with a progress observer invokes the
observer once per chunk read with the cumulative count and the total; the cumulative
values are non-negative, non-decreasing and never exceed the total; when the chunks
exhaust the source (their sum is the total) the final invocation reports
`uploaded = total`; and `UploadFromReader` with an undeterminable size (non-positive
request size and no seekable length) never fires the callback. -/
theorem c4_progress_invariants (chunks : List Nat) (total : Int)
    (htotal : total = (chunks.sum : Int)) :
    (progressCalls total chunks 0).length = chunks.length ∧
    (∀ c ∈ progressCalls total chunks 0, c.2 = total ∧ 0 ≤ c.1 ∧ c.1 ≤ total) ∧
    List.Pairwise (fun a b => a.1 ≤ b.1) (progressCalls total chunks 0) ∧
    (chunks ≠ [] → (progressCalls total chunks 0).getLast? = some (total, total)) ∧
    (∀ (hasObserver : Bool) (reqSize : Int) (rchunks : List Nat), reqSize ≤ 0 →
      uploadFromReaderProgressCalls hasObserver reqSize none rchunks = []) := by
  refine ⟨progressCalls_length total chunks 0, fun c hc => ?_, progressCalls_pairwise total chunks 0,
    fun hne => ?_, fun hasObserver reqSize rchunks hsize => ?_⟩
  · refine ⟨progressCalls_mem_snd total chunks 0 c hc, ?_, ?_⟩
    · simpa using progressCalls_mem_fst_ge total chunks 0 c hc
    · have := progressCalls_mem_fst_le total chunks 0 c hc
      omega
  · have := progressCalls_getLast? total chunks hne 0
    rw [this, htotal]
    norm_num
  · have hs : uploadFromReaderSize reqSize none = reqSize := by
      simp [uploadFromReaderSize, hsize]
    simp only [uploadFromReaderProgressCalls, hs]
    have : ¬reqSize > 0 := by omega
    cases hasObserver <;> simp [this]

/-- C4 witness: for chunk reads of 3 then 2 bytes of a 5-byte source, the final
callback reports `(5, 5)`; a reader of undeterminable size fires no callback. -/
theorem c4_progress_invariants_witness :
    (progressCalls 5 [3, 2] 0).getLast? = some (5, 5) ∧
    uploadFromReaderProgressCalls true (-1) none [3, 2] = [] := by
  have h := c4_progress_invariants [3, 2] 5 (by norm_num)
  exact ⟨h.2.2.2.1 (by simp), h.2.2.2.2 true (-1) [3, 2] (by norm_num)⟩

/-! Helper lemmas about the multipart form fields and the batch loop. -/

theorem uploadFormFields_fst (req : UploadRequest) :
    ∀ p ∈ uploadFormFields req,
      p.1 = "bucket" ∨ p.1 = "key" ∨ p.1 = "compress" ∨ p.1 = "quality" ∨
        p.1 = "watermark" ∨ p.1 = "watermarkText" ∨ p.1 = "watermarkPosition" := by
  intro p hp
  simp only [uploadFormFields, List.mem_append] at hp
  rcases hp with ((hp | hp) | hp) | hp
  · split at hp
    · simp only [List.mem_singleton] at hp
      subst hp
      simp
    · simp at hp
  · split at hp
    · simp only [List.mem_singleton] at hp
      subst hp
      simp
    · simp at hp
  · split at hp
    · rcases List.mem_cons.mp hp with h | h
      · subst h
        simp
      · split at h
        · simp only [List.mem_singleton] at h
          subst h
          simp
        · simp at h
    · simp at hp
  · split at hp
    · rcases List.mem_cons.mp hp with h | h
      · subst h
        simp
      · simp only [List.mem_append] at h
        rcases h with h | h <;> split at h <;>
          first
            | (simp only [List.mem_singleton] at h
               subst h
               simp)
            | simp at h
    · simp at hp

theorem batchUploadLoop_success (uploadF : UploadRequest → Except String UploadResult)
    (req : BatchUploadRequest) (n : Nat) :
    ∀ (files : List String) (i : Nat),
      (batchUploadLoop uploadF req n files i).1 =
        files.filterMap (fun f => (uploadF (batchItemRequest req f)).toOption) := by
  intro files
  induction files with
  | nil => intro i; simp [batchUploadLoop]
  | cons f rest ih =>
    intro i
    simp only [batchUploadLoop, List.filterMap_cons]
    cases h : uploadF (batchItemRequest req f) <;>
      simp [h, ih (i + 1), Except.toOption]

theorem batchUploadLoop_failed (uploadF : UploadRequest → Except String UploadResult)
    (req : BatchUploadRequest) (n : Nat) :
    ∀ (files : List String) (i : Nat),
      (batchUploadLoop uploadF req n files i).2.1 =
        files.filterMap (fun f =>
          match uploadF (batchItemRequest req f) with
          | Except.error e => some { file := f, error := e }
          | Except.ok _ => none) := by
  intro files
  induction files with
  | nil => intro i; simp [batchUploadLoop]
  | cons f rest ih =>
    intro i
    simp only [batchUploadLoop, List.filterMap_cons]
    cases h : uploadF (batchItemRequest req f) <;>
      simp [h, ih (i + 1)]

theorem batchUploadLoop_length (uploadF : UploadRequest → Except String UploadResult)
    (req : BatchUploadRequest) (n : Nat) :
    ∀ (files : List String) (i : Nat),
      (batchUploadLoop uploadF req n files i).1.length +
        (batchUploadLoop uploadF req n files i).2.1.length = files.length := by
  intro files
  induction files with
  | nil => intro i; simp [batchUploadLoop]
  | cons f rest ih =>
    intro i
    simp only [batchUploadLoop]
    cases h : uploadF (batchItemRequest req f) with
    | error e =>
      simp only [h, List.length_cons]
      have := ih (i + 1)
      omega
    | ok res =>
      simp only [h, List.length_cons]
      have := ih (i + 1)
      omega

/-- C6: an upload request with Compress=true, Quality=80, Watermark=true and
WatermarkText="X" produces a multipart body whose payload sits under form field
`file` and whose text fields include `compress=true`, `quality=80`, `watermark=true`
and `watermarkText=X`; the allowed-file-type filter goes only to the repeated
`allowedTypes` query parameters and never appears among the body fields. -/
theorem c6_multipart_fields (req : UploadRequest) (filename : String) (content : List Nat)
    (hc : req.compress = true) (hq : req.quality = 80)
    (hw : req.watermark = true) (ht : req.watermarkText = "X") :
    (uploadBody filename content req).fileField = "file" ∧
    (uploadBody filename content req).fileName = filename ∧
    (uploadBody filename content req).fileContent = content ∧
    ("compress", "true") ∈ (uploadBody filename content req).fields ∧
    ("quality", "80") ∈ (uploadBody filename content req).fields ∧
    ("watermark", "true") ∈ (uploadBody filename content req).fields ∧
    ("watermarkText", "X") ∈ (uploadBody filename content req).fields ∧
    (∀ v, ("allowedTypes", v) ∉ (uploadBody filename content req).fields) ∧
    uploadQueryParams req = req.allowedTypes.map (fun t => ("allowedTypes", t)) := by
  have h80 : toString (80 : Int) = "80" := rfl
  refine ⟨rfl, rfl, rfl, ?_, ?_, ?_, ?_, fun v hv => ?_, rfl⟩
  · simp [uploadBody, uploadFormFields, hc]
  · simp [uploadBody, uploadFormFields, hc, hq, h80]
  · simp [uploadBody, uploadFormFields, hw]
  · simp [uploadBody, uploadFormFields, hw, ht]
  · have := uploadFormFields_fst req _ hv
    simp at this

/-- C6 witness: a concrete request with the four options set produces exactly the
expected fields and query parameters. -/
theorem c6_multipart_fields_witness :
    ("quality", "80") ∈
      (uploadBody "f.png" [1]
        { filePath := "", bucket := "", key := "", allowedTypes := ["image/png"],
          compress := true, quality := 80, watermark := true, watermarkText := "X",
          watermarkPosition := "" }).fields ∧
    uploadQueryParams
        { filePath := "", bucket := "", key := "", allowedTypes := ["image/png"],
          compress := true, quality := 80, watermark := true, watermarkText := "X",
          watermarkPosition := "" } = [("allowedTypes", "image/png")] := by
  have h := c6_multipart_fields
    { filePath := "", bucket := "", key := "", allowedTypes := ["image/png"],
      compress := true, quality := 80, watermark := true, watermarkText := "X",
      watermarkPosition := "" } "f.png" [1] rfl rfl rfl rfl
  exact ⟨h.2.2.2.2.1, h.2.2.2.2.2.2.2.2⟩

/-- C1 counterexample: `GetFileURL` — one of the SDK's operations — given an HTTP
200 response whose success envelope indicates failure (`success: false`), returns
the decoded data (here an empty URL) with no error rather than an `APIError`, so
the claim does not hold for every operation. -/
theorem c1_counterexample :
    getFileURLHandleResponse 200 "" none (some { success := false, url := "" }) =
      Except.ok "" := rfl

/-- C1 (amended): for the upload operation, an HTTP 200 response whose envelope
indicates failure (success `false` and code ≠ 200) yields an `APIError` carrying
the status code and the envelope message — preferring `message` and falling back to
`msg` — and never the decoded success result; `GetFileURL`, the operation of the
counterexample, does not inspect the envelope's success flag on a 200 response and
returns the decoded data instead. -/
theorem c1_upload_envelope_failure (rawBody : String) (parsedErr : Option APIError)
    (e : UploadEnvelope) (hs : e.success = false) (hc : e.code ≠ 200) :
    uploadReaderHandleResponse 200 rawBody parsedErr (some e) =
      Except.error (SDKError.api
        { statusCode := 200
          message := if e.message = "" then e.msg else e.message
          details := "" }) ∧
    (e.message ≠ "" → (if e.message = "" then e.msg else e.message) = e.message) ∧
    (e.message = "" → (if e.message = "" then e.msg else e.message) = e.msg) ∧
    (∀ g : GetFileURLEnvelope,
      getFileURLHandleResponse 200 rawBody parsedErr (some g) = Except.ok g.url) := by
  have hdec : decide (e.code = 200) = false := decide_eq_false hc
  refine ⟨?_, fun h => by simp [h], fun h => by simp [h], fun g => rfl⟩
  simp [uploadReaderHandleResponse, hs, hdec]

/-- C1 witness: a 200 response with envelope `success=false, code=500, msg="mfail"`
makes the upload operation fail with an `APIError` whose message is the `msg`
fallback. -/
theorem c1_upload_envelope_failure_witness :
    uploadReaderHandleResponse 200 "" none
        (some ⟨false, "", ⟨"", "", "", 0, 0, false, false, ""⟩, 500, "mfail"⟩) =
      Except.error (SDKError.api ⟨200, "mfail", ""⟩) := by
  have h := c1_upload_envelope_failure "" none
    ⟨false, "", ⟨"", "", "", 0, 0, false, false, ""⟩, 500, "mfail"⟩ rfl (by decide)
  simpa using h.1

/-- C3: a batch upload of 3 files where the 2nd upload fails yields Total=3, two
Success entries (in order), one Failed entry recording the 2nd file's path and its
error message; the per-batch observer is called exactly 4 times — with completed
0, 1, 2 before the items, then a final `(3, 3, "")` — and the batch returns no
error. -/
theorem c3_batch_one_failure (req : BatchUploadRequest) (f0 f1 f2 : String)
    (uploadF : UploadRequest → Except String UploadResult) (r0 r2 : UploadResult) (m : String)
    (hfiles : req.files = [f0, f1, f2])
    (h0 : uploadF (batchItemRequest req f0) = Except.ok r0)
    (h1 : uploadF (batchItemRequest req f1) = Except.error m)
    (h2 : uploadF (batchItemRequest req f2) = Except.ok r2) :
    (batchUpload uploadF req).1 = Except.ok (batchUploadRun uploadF req).1 ∧
    (batchUploadRun uploadF req).1.total = 3 ∧
    (batchUploadRun uploadF req).1.success = [r0, r2] ∧
    (batchUploadRun uploadF req).1.failed = [{ file := f1, error := m }] ∧
    (batchUpload uploadF req).2 = [(0, 3, f0), (1, 3, f1), (2, 3, f2), (3, 3, "")] := by
  refine ⟨rfl, ?_, ?_, ?_, ?_⟩ <;>
    simp [batchUpload, batchUploadRun, batchUploadLoop, hfiles, h0, h1, h2]

/-- C3 witness: the scenario with files a, b, c where uploading b fails. -/
theorem c3_batch_one_failure_witness :
    (batchUploadRun
        (fun r => if r.filePath = "b" then Except.error "boom"
          else Except.ok ⟨"k", "bu", r.filePath, 1, 1, false, false, ""⟩)
        ⟨["a", "b", "c"], "bu", "", [], false, 0, false, "", ""⟩).1.failed =
      [⟨"b", "boom"⟩] ∧
    (batchUpload
        (fun r => if r.filePath = "b" then Except.error "boom"
          else Except.ok ⟨"k", "bu", r.filePath, 1, 1, false, false, ""⟩)
        ⟨["a", "b", "c"], "bu", "", [], false, 0, false, "", ""⟩).2 =
      [(0, 3, "a"), (1, 3, "b"), (2, 3, "c"), (3, 3, "")] := by
  have h := c3_batch_one_failure
    ⟨["a", "b", "c"], "bu", "", [], false, 0, false, "", ""⟩ "a" "b" "c"
    (fun r => if r.filePath = "b" then Except.error "boom"
      else Except.ok ⟨"k", "bu", r.filePath, 1, 1, false, false, ""⟩)
    ⟨"k", "bu", "a", 1, 1, false, false, ""⟩ ⟨"k", "bu", "c", 1, 1, false, false, ""⟩
    "boom" rfl rfl rfl rfl
  exact ⟨h.2.2.2.1, h.2.2.2.2⟩

/-- C10: for every batch request and every per-file outcome, the result partitions
the input files: Total equals the number of files, every file contributes exactly
one entry — to Success on success, to Failed on failure — both slices keep the
input order, and the returned error is always nil. -/
theorem c10_batch_partition (uploadF : UploadRequest → Except String UploadResult)
    (req : BatchUploadRequest) :
    (batchUpload uploadF req).1 = Except.ok (batchUploadRun uploadF req).1 ∧
    (batchUploadRun uploadF req).1.total = req.files.length ∧
    (batchUploadRun uploadF req).1.success.length +
        (batchUploadRun uploadF req).1.failed.length = req.files.length ∧
    (batchUploadRun uploadF req).1.success =
      req.files.filterMap (fun f => (uploadF (batchItemRequest req f)).toOption) ∧
    (batchUploadRun uploadF req).1.failed =
      req.files.filterMap (fun f =>
        match uploadF (batchItemRequest req f) with
        | Except.error e => some { file := f, error := e }
        | Except.ok _ => none) :=
  ⟨rfl, rfl, batchUploadLoop_length uploadF req req.files.length req.files 0,
    batchUploadLoop_success uploadF req req.files.length req.files 0,
    batchUploadLoop_failed uploadF req req.files.length req.files 0⟩

end LingStorage
